import Mathlib

/-!
Verification of the vRO-Workflows repository tooling.

The repository's logic lives in three places:
  * scripts/docs-workflow.js   - Markdown documentation generator for vRO
    workflow XML files (parsed by xml2js with explicitArray:false,
    mergeAttrs:true, explicitCharkey:true);
  * scripts/validate-workflow.js - naming / description validator over the
    same parsed XML objects;
  * the CI pipeline YAML - sequential HTTP calls (refresh token, bearer
    token, workflow trigger with a bash retry loop).

We shallowly embed the JavaScript values the xml2js parser produces as the
inductive type `JVal` (undefined, null, booleans, strings, arrays, objects);
the XML parser itself only ever produces strings, arrays and objects, and
`undefined` arises from absent property accesses.  Each JavaScript function of
the scripts is translated into a Lean function over `JVal`, and the claims
about the scripts are proved about those functions.
-/

namespace Vro

/-- JavaScript values as produced by the xml2js / JSON parsers and by
property accesses: `undefined` is JavaScript `undefined`, `null` is JavaScript
`null`, objects are association lists of fields in insertion order. -/
inductive JVal where
  | undefined : JVal
  | null : JVal
  | bool : Bool → JVal
  | str : String → JVal
  | arr : List JVal → JVal
  | obj : List (String × JVal) → JVal
deriving Repr

/-- Property access `v[k]` / `v?.k`: on an object, the first field named
`k` (xml2js never produces duplicate keys); on anything else `undefined`. -/
def jget (v : JVal) (k : String) : JVal :=
  match v with
  | .obj fields =>
      match fields.find? (fun p => p.1 == k) with
      | some p => p.2
      | none => .undefined
  | _ => .undefined

/-- JavaScript truthiness on the embedded values: `undefined`, `null`,
`false` and the empty string are falsy, every array and object is truthy. -/
def truthy : JVal → Bool
  | .undefined => false
  | .null => false
  | .bool b => b
  | .str s => !(s == "")
  | .arr _ => true
  | .obj _ => true

/-- Is the value an array (`Array.isArray`)? -/
def isArr : JVal → Bool
  | .arr _ => true
  | _ => false

/-- JavaScript `a || b`: `a` when truthy, otherwise `b`. -/
def jor (a b : JVal) : JVal := if truthy a then a else b

/-- JavaScript `a ?? b`: `b` exactly when `a` is `null`/`undefined`. -/
def jnc (a b : JVal) : JVal :=
  match a with
  | .undefined => b
  | .null => b
  | v => v

/-- Strict equality `v === s` against a string literal. -/
def isStrEq (v : JVal) (s : String) : Bool :=
  match v with
  | .str t => t == s
  | _ => false

/-- Strict equality `v === true`. -/
def isTrueEq : JVal → Bool
  | .bool b => b
  | _ => false

mutual

/-- JavaScript string coercion `String(v)` / template interpolation:
`undefined`/`null`/booleans print their names, arrays join their elements
with commas (`Array.prototype.toString`), plain objects print
`[object Object]`. -/
def jsToString : JVal → String
  | .undefined => "undefined"
  | .null => "null"
  | .bool true => "true"
  | .bool false => "false"
  | .str s => s
  | .obj _ => "[object Object]"
  | .arr l => jsJoinComma l
termination_by structural v => v

/-- `Array.prototype.join(",")` over the element coercions: `null` and
`undefined` elements render as the empty string, every other element uses
the ordinary coercion. -/
def jsJoinComma : List JVal → String
  | [] => ""
  | [.undefined] => ""
  | [.null] => ""
  | [v] => jsToString v
  | .undefined :: rest => "," ++ jsJoinComma rest
  | .null :: rest => "," ++ jsJoinComma rest
  | v :: rest => jsToString v ++ "," ++ jsJoinComma rest
termination_by structural l => l

end

/-- The `collect` helper shared verbatim by docs-workflow.js and
validate-workflow.js:
`const collect = (x) => (Array.isArray(x) ? x : x ? [x] : []);`. -/
def collect (x : JVal) : List JVal :=
  match x with
  | .arr l => l
  | v => if truthy v then [v] else []

/-! ### validate-workflow.js : regular-expression matchers

`CAMEL_CASE_RE = /^[a-z]+(?:[A-Z][a-z0-9]*)*$/` and
`UPPER_CASE_RE = /^[A-Z0-9_]+$/`.  Both regexes are deterministic (the
character classes `[a-z]`, `[A-Z]`, `[a-z0-9]` that open the pieces are
pairwise compatible only in one way), so they are embedded as
straight-line recursive matchers over the character list. -/

/-- Character class `[a-z]`. -/
def lowerAZ (c : Char) : Bool := 'a' ≤ c && c ≤ 'z'

/-- Character class `[A-Z]`. -/
def upperAZ (c : Char) : Bool := 'A' ≤ c && c ≤ 'Z'

/-- Character class `[0-9]`. -/
def digit09 (c : Char) : Bool := '0' ≤ c && c ≤ '9'

/-- Character class `[a-z0-9]`. -/
def lowerDigit (c : Char) : Bool := lowerAZ c || digit09 c

/-- Character class `[A-Z0-9_]`. -/
def upperDigitUnderscore (c : Char) : Bool :=
  upperAZ c || digit09 c || c == '_'

/-- Remainder of `(?:[A-Z][a-z0-9]*)*` after its first `[A-Z]`: every
further character is either the start of a new group (`[A-Z]`) or part of
the current group's `[a-z0-9]*` tail. -/
def camelAfterUpper : List Char → Bool
  | [] => true
  | c :: cs => (upperAZ c || lowerDigit c) && camelAfterUpper cs

/-- The suffix `(?:[A-Z][a-z0-9]*)*$`: empty, or an `[A-Z]` followed by
characters drawn from `[A-Z]` / `[a-z0-9]`. -/
def camelGroups : List Char → Bool
  | [] => true
  | c :: cs => upperAZ c && camelAfterUpper cs

/-- After the leading `[a-z]`, consume the rest of the `[a-z]+` run and
then require `(?:[A-Z][a-z0-9]*)*$`. -/
def camelTail : List Char → Bool
  | [] => true
  | c :: cs => if lowerAZ c then camelTail cs else camelGroups (c :: cs)

/-- Matcher for `CAMEL_CASE_RE = /^[a-z]+(?:[A-Z][a-z0-9]*)*$/`. -/
def camelCaseMatch (s : String) : Bool :=
  match s.data with
  | [] => false
  | c :: cs => lowerAZ c && camelTail cs

/-- Matcher for `UPPER_CASE_RE = /^[A-Z0-9_]+$/`. -/
def upperCaseMatch (s : String) : Bool :=
  !s.data.isEmpty && s.data.all upperDigitUnderscore

/-! ### validate-workflow.js : the validator itself -/

/-- `isConstant(attr)`: the attribute is treated as a constant when
`attr['read-only'] === 'true' || attr.readOnly === true ||
attr['readOnly'] === 'true'` (the last two read the same property). -/
def isConstant (attr : JVal) : Bool :=
  isStrEq (jget attr "read-only") "true" ||
  isTrueEq (jget attr "readOnly") ||
  isStrEq (jget attr "readOnly") "true"

/-- `validateName(name, constant)`: `RegExp.test` coerces its argument to
a string, then `constant ? UPPER_CASE_RE.test(name) :
CAMEL_CASE_RE.test(name)`. -/
def validateName (name : JVal) (constant : Bool) : Bool :=
  if constant then upperCaseMatch (jsToString name)
  else camelCaseMatch (jsToString name)

/-- The character set JavaScript's `String.prototype.trim` strips:
WhiteSpace (space, tab, vertical tab, form feed, no-break space, BOM and
the Unicode space separators) together with the line terminators. -/
def jsSpace (c : Char) : Bool :=
  c == ' ' || c == '\t' || c == '\n' || c == '\r' ||
  c == '\x0b' || c == '\x0c' || c.toNat == 0xa0 || c.toNat == 0x1680 ||
  (0x2000 ≤ c.toNat && c.toNat ≤ 0x200a) ||
  c.toNat == 0x2028 || c.toNat == 0x2029 || c.toNat == 0x202f ||
  c.toNat == 0x205f || c.toNat == 0x3000 || c.toNat == 0xfeff

/-- `s.trim()` as JavaScript performs it: strip `jsSpace` characters from
both ends. -/
def jsTrim (s : String) : String :=
  ⟨(((s.data.dropWhile jsSpace).reverse).dropWhile jsSpace).reverse⟩

/-- `nodeHasDescription(node)`: false unless the node and its
`description` field are truthy and `description._ ?? description` is a
string whose trim is non-empty. -/
def nodeHasDescription (node : JVal) : Bool :=
  if truthy node = false then false
  else
    let d := jget node "description"
    if truthy d = false then false
    else
      match jnc (jget d "_") d with
      | .str s => decide (0 < (jsTrim s).length)
      | _ => false

/-- Body of the `for (const entry of sections)` loop: skip the entry when
`entry?.name` is falsy, otherwise add one violation when the naming check
fails and one more when the description is missing. -/
def entryStep (violations : Nat) (entry : JVal) : Nat :=
  let name := jget entry "name"
  if truthy name = false then violations
  else
    let constant := isConstant entry
    let v1 := if validateName name constant then violations else violations + 1
    if nodeHasDescription entry then v1 else v1 + 1

/-- The combined `[...inputs, ...outputs, ...attribs]` list of one file. -/
def sectionsOf (wf : JVal) : List JVal :=
  collect (jget (jget wf "input") "param") ++
  collect (jget (jget wf "output") "param") ++
  collect (jget wf "attrib")

/-- `itemsRaw = wf['workflow-item'] ?? []; items = Array.isArray(itemsRaw)
? itemsRaw : [itemsRaw]` — note this wraps even falsy non-nullish values,
unlike `collect`. -/
def valItemsOf (wf : JVal) : List JVal :=
  match jget wf "workflow-item" with
  | .undefined => []
  | .null => []
  | .arr l => l
  | v => [v]

/-- Body of the workflow-item loop: skip `end`/`start`/`link` items,
otherwise add a violation when the description is missing.
(`item.type ?? item["type"]` reads the same property twice.) -/
def itemStep (violations : Nat) (item : JVal) : Nat :=
  let t := jget item "type"
  if isStrEq t "end" || isStrEq t "start" || isStrEq t "link" then violations
  else if nodeHasDescription item then violations else violations + 1

/-- `Object.keys(wfObj)[0]` followed by `wfObj[rootKey]`: the value of the
first key, or `undefined` when there is none. -/
def firstVal : JVal → JVal
  | .obj ((_, v) :: _) => v
  | _ => .undefined

/-- Violations contributed by one parsed file: one violation when the root
element is falsy (`if (!wf)`), otherwise the sections loop plus the
workflow-item loop. -/
def fileViolations (wfObj : JVal) : Nat :=
  let wf := firstVal wfObj
  if truthy wf = false then 1
  else (sectionsOf wf).foldl entryStep 0 + (valItemsOf wf).foldl itemStep 0

/-- The global `violations` counter after scanning every file. -/
def totalViolations (files : List JVal) : Nat :=
  files.foldl (fun acc f => acc + fileViolations f) 0

/-- Observable outcome of the validator's final step. -/
structure ValidatorOutcome where
  exitCode : Option Nat
  successMsg : Bool
deriving Repr

/-- The validator's tail: `if (violations > 0) process.exit(1) else
console.log('✅  All variables & descriptions are valid.')`. -/
def runValidator (files : List JVal) : ValidatorOutcome :=
  if 0 < totalViolations files then ⟨some 1, false⟩ else ⟨none, true⟩

/-- Violations of the three kinds the specification's claim enumerates
(naming failure, missing variable description, missing workflow-item
description): the same count as `fileViolations` except that a falsy root
element contributes nothing. -/
def listedFileViolations (wfObj : JVal) : Nat :=
  let wf := firstVal wfObj
  if truthy wf = false then 0
  else (sectionsOf wf).foldl entryStep 0 + (valItemsOf wf).foldl itemStep 0

/-- Total of the claim-enumerated violation kinds over all files. -/
def listedViolations (files : List JVal) : Nat :=
  files.foldl (fun acc f => acc + listedFileViolations f) 0

/-- Files whose parsed object has a falsy root element (`if (!wf)`). -/
def rootViolations (files : List JVal) : Nat :=
  files.foldl
    (fun acc f => acc + if truthy (firstVal f) = false then 1 else 0) 0

/-! ### docs-workflow.js : helpers -/

/-- The `fence` helper:
`(code, lang = 'javascript') => backtick-backtick-backtick lang \n code \n
backtick-backtick` — note the source's closing fence really has only two
backticks. -/
def fence (code : String) : String :=
  "```javascript\n" ++ code ++ "\n``"

/-- The `text` helper: a string is returned as is, otherwise
`node?._ ?? ''`; the result is a raw JavaScript value (the `_` field need
not be a string). -/
def text (node : JVal) : JVal :=
  match node with
  | .str s => .str s
  | v => jnc (jget v "_") (.str "")

/-- `s.repeat(n)`. -/
def strRepeat (s : String) : Nat → String
  | 0 => ""
  | n + 1 => s ++ strRepeat s n

/-- One column of the `table` helper: the row key and the header label. -/
structure Col where
  key : String
  header : String

/-- A cell `r[c.key] ?? ''` before template interpolation. -/
def tableCellVal (r : JVal) (k : String) : JVal := jnc (jget r k) (.str "")

/-- One data row of the `table` helper. -/
def tableRow (cols : List Col) (r : JVal) : String :=
  "| " ++
    String.intercalate " | "
      (cols.map (fun c => jsToString (tableCellVal r c.key))) ++ " |"

/-- The `table(arr, cols)` helper of docs-workflow.js: empty string on an
empty array (`arr.length` is falsy), otherwise a header row, a separator
row `|-|-|...` and the data rows joined with newlines. -/
def table (arr : List JVal) (cols : List Col) : String :=
  if arr.length == 0 then ""
  else
    "| " ++ String.intercalate " | " (cols.map Col.header) ++ " |\n|" ++
      strRepeat "-|" cols.length ++ "\n" ++
      String.intercalate "\n" (arr.map (tableRow cols)) ++ "\n"

/-! ### docs-workflow.js : metadata and collections -/

/-- `text(root['display-name']) || root['object-name'] ||
path.basename(xmlFile)`; `base` is the basename of the XML file. -/
def wfNameOf (root : JVal) (base : String) : JVal :=
  jor (text (jget root "display-name"))
    (jor (jget root "object-name") (.str base))

/-- `root.id ?? 'n/a'`. -/
def wfIdOf (root : JVal) : JVal := jnc (jget root "id") (.str "n/a")

/-- `root.version ?? 'n/a'`. -/
def wfVersionOf (root : JVal) : JVal := jnc (jget root "version") (.str "n/a")

/-- `text(root.description) || '_No description provided_'`. -/
def wfDescOf (root : JVal) : JVal :=
  jor (text (jget root "description")) (.str "_No description provided_")

/-- `collect(root.attrib)`. -/
def attribsOf (root : JVal) : List JVal := collect (jget root "attrib")

/-- `collect(root.input?.param)`. -/
def inputsOf (root : JVal) : List JVal :=
  collect (jget (jget root "input") "param")

/-- `collect(root.output?.param)`. -/
def outputsOf (root : JVal) : List JVal :=
  collect (jget (jget root "output") "param")

/-- `collect(root['workflow-item'])` (the docs generator, unlike the
validator, uses `collect` here). -/
def docItemsOf (root : JVal) : List JVal := collect (jget root "workflow-item")

/-- `collect(root['error-handler'])`. -/
def errorHandlersOf (root : JVal) : List JVal :=
  collect (jget root "error-handler")

/-- `text(el['display-name']) || el.name || 'unknown'`. -/
def dispNameOf (el : JVal) : JVal :=
  jor (text (jget el "display-name")) (jor (jget el "name") (.str "unknown"))

/-- The `linkedWorkflows` accumulation: items with `type === 'link'` and a
truthy `linked-workflow-id`, pushed as `(id, display name)`. -/
def linkedWorkflowsOf (root : JVal) : List (JVal × JVal) :=
  (docItemsOf root).filterMap (fun el =>
    if isStrEq (jget el "type") "link" && truthy (jget el "linked-workflow-id")
    then some (jget el "linked-workflow-id", dispNameOf el)
    else none)

/-- The `linkedModules` accumulation: truthy `script-module` fields. -/
def linkedModulesOf (root : JVal) : List JVal :=
  (docItemsOf root).filterMap (fun el =>
    if truthy (jget el "script-module") then some (jget el "script-module")
    else none)

/-! ### docs-workflow.js : the form-properties try/catch -/

/-- JSON string quoting as performed by `JSON.stringify` on a string value:
double quotes, with `"` , `\`, and control characters escaped. -/
def jsonQuoteChar (c : Char) : String :=
  if c == '"' then "\\\""
  else if c == '\\' then "\\\\"
  else if c == '\n' then "\\n"
  else if c == '\r' then "\\r"
  else if c == '\t' then "\\t"
  else if c.toNat < 32 then
    "\\u" ++ (Nat.toDigits 16 c.toNat).asString.leftpad 4 '0'
  else String.singleton c

/-- JSON quoting of a whole string. -/
def jsonQuote (s : String) : String :=
  "\"" ++ String.join (s.data.map jsonQuoteChar) ++ "\""

mutual

/-- `JSON.stringify` on the JSON-shaped values reachable here (the
arguments are fields of a freshly `JSON.parse`d object, so `undefined` never
occurs inside them). -/
def jsonStringify : JVal → String
  | .undefined => "null"
  | .null => "null"
  | .bool true => "true"
  | .bool false => "false"
  | .str s => jsonQuote s
  | .arr l => "[" ++ jsonStringifyElems l ++ "]"
  | .obj fs => "\x7b" ++ jsonStringifyFields fs ++ "\x7d"
termination_by structural v => v

/-- Comma-joined stringification of array elements. -/
def jsonStringifyElems : List JVal → String
  | [] => ""
  | [v] => jsonStringify v
  | v :: rest => jsonStringify v ++ "," ++ jsonStringifyElems rest
termination_by structural l => l

/-- Comma-joined stringification of object fields. -/
def jsonStringifyFields : List (String × JVal) → String
  | [] => ""
  | [(k, v)] => jsonQuote k ++ ":" ++ jsonStringify v
  | (k, v) :: rest =>
      jsonQuote k ++ ":" ++ jsonStringify v ++ "," ++ jsonStringifyFields rest
termination_by structural l => l

end

/-- `Object.values`: own enumerable values of an object, the elements of
an array, the characters of a string, and nothing for other primitives. -/
def objValues : JVal → List JVal
  | .obj fs => fs.map Prod.snd
  | .arr l => l
  | .str s => s.data.map (fun c => .str (String.singleton c))
  | _ => []

/-- One form property built from a schema entry `p` of `forms/_.json`. -/
def mkFormProp (p : JVal) : JVal :=
  .obj [("id", jget p "id"),
        ("label", jget p "label"),
        ("dataType", jnc (jget (jget p "type") "dataType") (.str "")),
        ("constraints", .str (jsonStringify (jnc (jget p "constraints") (.obj [])))),
        ("default", .str (jsonStringify (jnc (jget p "default") (.obj [])))),
        ("valueList", .str (jsonStringify (jnc (jget p "valueList") (.obj [])))),
        ("signpost", jnc (jget p "signpost") (.str ""))]

/-- The guarded form-properties computation: `formProps` starts as `[]`;
inside the single try/catch the generator reads and parses
`forms/_.json` and maps `Object.values(schema ?? \x7b\x7d)`; any failure of
the guarded operation (read or parse) leaves `formProps = []`. -/
def formPropsOf : Except Unit JVal → List JVal
  | .error _ => []
  | .ok j => (objValues (jnc (jget j "schema") (.obj []))).map mkFormProp

/-! ### docs-workflow.js : the Markdown document

The generator builds `md` by straight-line concatenation; each definition
below embeds one contiguous region of the source. -/

/-- Opening of a `<details>` block with a given `<h2>` summary title. -/
def wrapOpen (title : String) : String :=
  "<details>\n<summary><h2>" ++ title ++ "</h2></summary>\n\n"

/-- The columns `Name` / `Type` used for variables, inputs and outputs. -/
def nameTypeCols : List Col := [⟨"name", "Name"⟩, ⟨"type", "Type"⟩]

/-- The columns of the Workflow Form table. -/
def formCols : List Col :=
  [⟨"id", "ID"⟩, ⟨"label", "Label"⟩, ⟨"dataType", "Data Type"⟩,
   ⟨"constraints", "Constraints"⟩, ⟨"default", "Default"⟩,
   ⟨"valueList", "Value List"⟩, ⟨"signpost", "Signpost"⟩]

/-- The columns of the binding tables inside an element. -/
def bindCols : List Col :=
  [⟨"name", "Variable Name"⟩, ⟨"type", "Type"⟩,
   ⟨"export-name", "Workflow Variable"⟩]

/-- The opening heading line `# <name> - Workflow Documentation`. -/
def mdHeaderOf (root : JVal) (base : String) : String :=
  "# " ++ jsToString (wfNameOf root base) ++ " - Workflow Documentation\n\n"

/-- The Workflow Details block (name, id, version, description). -/
def mdDetailsOf (root : JVal) (base : String) : String :=
  wrapOpen "Workflow Details" ++
  "- **Workflow Name:** " ++ jsToString (wfNameOf root base) ++ "\n" ++
  "- **Workflow ID:** `" ++ jsToString (wfIdOf root) ++ "`\n" ++
  "- **Version:** " ++ jsToString (wfVersionOf root) ++ "\n" ++
  "- **Description:** " ++ jsToString (wfDescOf root) ++ "\n" ++
  "</details>\n\n"

/-- One of the four `if (xxx.length) md += <details>...table...</details>`
sections. -/
def mdTableSectionOf (title : String) (rows : List JVal) (cols : List Col) :
    String :=
  if rows.length == 0 then ""
  else wrapOpen title ++ table rows cols ++ "</details>\n\n"

/-- `el.script?._`. -/
def scriptTextOf (el : JVal) : JVal := jget (jget el "script") "_"

/-- `const inB = collect(el['in-binding']?.bind)` followed by the guarded
`md += ...` for the input-bindings table. -/
def elInBindingPart (el : JVal) : String :=
  if (collect (jget (jget el "in-binding") "bind")).length == 0 then ""
  else "\n**Input Bindings:**\n\n" ++
    table (collect (jget (jget el "in-binding") "bind")) bindCols

/-- The analogous guarded output-bindings table. -/
def elOutBindingPart (el : JVal) : String :=
  if (collect (jget (jget el "out-binding") "bind")).length == 0 then ""
  else "\n**Output Bindings:**\n\n" ++
    table (collect (jget (jget el "out-binding") "bind")) bindCols

/-- `if (el.script?._) md += ... fence(el.script._.trim()) ...`.
(`el.script._.trim()` presupposes the script text is a string; a truthy
non-string `_` would throw in the source and is not modelled.) -/
def elScriptPart (el : JVal) : String :=
  match scriptTextOf el with
  | .str s =>
      if s == "" then "" else "\n**Script:**\n\n" ++ fence (jsTrim s) ++ "\n"
  | _ => ""

/-- The body of the `for (const el of items)` loop: heading, type and
description lines, the two optional binding tables, and the optional
fenced script. -/
def elementBlock (el : JVal) : String :=
  "#### Element: " ++ jsToString (dispNameOf el) ++ "\n" ++
  "- **Type:** " ++ jsToString (jget el "type") ++ "\n" ++
  "- **Description:** " ++
    jsToString (jnc (jget el "description") (.str "_No description provided_")) ++
    "\n" ++
  elInBindingPart el ++
  elOutBindingPart el ++
  elScriptPart el ++
  "\n---\n\n"

/-- The Workflow Elements section: the wrapper around one `elementBlock`
per workflow item. -/
def mdElementsOf (root : JVal) : String :=
  wrapOpen "Workflow Elements" ++
  String.join ((docItemsOf root).map elementBlock) ++ "</details>\n\n"

/-- Lines of the Error Handlers section: one line per handler, or the
placeholder (`if (errorHandlers.length) ... else ...`). -/
def errorHandlerLines (root : JVal) : String :=
  if (errorHandlersOf root).length == 0 then "_No error handlers defined._\n"
  else String.join ((errorHandlersOf root).map (fun eh =>
    "- **Element Name:** " ++ jsToString (jget eh "name") ++ " (throws: " ++
    jsToString (jnc (jget eh "throw-bind-name") (.str "_None_")) ++ ")\n"))

/-- The Error Handlers section. -/
def mdErrorHandlersOf (root : JVal) : String :=
  wrapOpen "Error Handlers" ++ errorHandlerLines root ++ "</details>\n\n"

/-- Lines of the Linked Workflows section: one line per linked workflow,
or the placeholder. -/
def linkedWorkflowLines (root : JVal) : String :=
  if (linkedWorkflowsOf root).length == 0 then "_No linked workflows defined._\n"
  else String.join ((linkedWorkflowsOf root).map (fun lw =>
    "- **Name:** " ++ jsToString lw.2 ++ ", **ID:** `" ++
    jsToString lw.1 ++ "`\n"))

/-- The Linked Workflows section. -/
def mdLinkedWorkflowsOf (root : JVal) : String :=
  wrapOpen "Linked Workflows" ++ linkedWorkflowLines root ++ "</details>\n\n"

/-- The optional Linked Actions section (only when script modules exist). -/
def mdLinkedModulesOf (root : JVal) : String :=
  if (linkedModulesOf root).length == 0 then ""
  else
    wrapOpen "Linked Actions (script modules)" ++
    String.join ((linkedModulesOf root).map (fun m =>
      "- `" ++ jsToString m ++ "`\n")) ++ "</details>\n\n"

/-- The whole Markdown document for one workflow file: the generator's
sequential `md += ...` statements in source order.  `base` stands for
`path.basename(xmlFile)` and `fp` for the computed `formProps`. -/
def genMd (root : JVal) (base : String) (fp : List JVal) : String :=
  mdHeaderOf root base ++
  mdDetailsOf root base ++
  mdTableSectionOf "Workflow Variables" (attribsOf root) nameTypeCols ++
  mdTableSectionOf "Workflow Inputs" (inputsOf root) nameTypeCols ++
  mdTableSectionOf "Workflow Outputs" (outputsOf root) nameTypeCols ++
  mdTableSectionOf "Workflow Form" fp formCols ++
  mdElementsOf root ++
  mdErrorHandlersOf root ++
  mdLinkedWorkflowsOf root ++
  mdLinkedModulesOf root

/-- Everything of the document that precedes the Workflow Form section. -/
def mdBeforeFormOf (root : JVal) (base : String) : String :=
  mdHeaderOf root base ++
  mdDetailsOf root base ++
  mdTableSectionOf "Workflow Variables" (attribsOf root) nameTypeCols ++
  mdTableSectionOf "Workflow Inputs" (inputsOf root) nameTypeCols ++
  mdTableSectionOf "Workflow Outputs" (outputsOf root) nameTypeCols

/-- Everything of the document that follows the Workflow Form section. -/
def mdAfterFormOf (root : JVal) : String :=
  mdElementsOf root ++
  mdErrorHandlersOf root ++
  mdLinkedWorkflowsOf root ++
  mdLinkedModulesOf root

/-! ### CI pipeline (trigger-vro job of the merge workflow YAML)

The three curl steps are sequential; each consumes the output of the
previous one.  A request is recorded by its URL, the name/value pairs its
JSON body carries, and its Authorization header. -/

/-- One HTTP POST request as issued by the job. -/
structure HttpReq where
  url : String
  params : List (String × String)
  authHeader : Option String
deriving Repr, DecidableEq

/-- Step `refresh-token`: POST the username and password to the login
endpoint. -/
def loginReq (vraUrl user pass : String) : HttpReq :=
  ⟨vraUrl ++ "/csp/gateway/am/api/login?access_token",
   [("username", user), ("password", pass)], none⟩

/-- Step `bearer-token`: POST the refresh token to the second endpoint. -/
def bearerReq (vraUrl rt : String) : HttpReq :=
  ⟨vraUrl ++ "/iaas/api/login", [("refreshToken", rt)], none⟩

/-- The trigger step's POST: the fixed executions URL, the two workflow
parameters, and the bearer token in the Authorization header. -/
def triggerReq (vraUrl bt wfId branch : String) : HttpReq :=
  ⟨vraUrl ++ "/vco/api/workflows/d8a3ea33-868f-43f4-bed1-df4404b0cedb/executions",
   [("workflowID", wfId), ("branchName", branch)],
   some ("Bearer " ++ bt)⟩

/-- The requests the job issues, in order.  The remote endpoints are
modelled as functions: `refreshOf user pass` is the `refresh_token` field
`jq` extracts from the login response, `bearerOf rt` the `token` field of
the second response. -/
def ciTrace (vraUrl user pass wfId branch : String)
    (refreshOf : String → String → String) (bearerOf : String → String) :
    List HttpReq :=
  let rt := refreshOf user pass
  let bt := bearerOf rt
  [loginReq vraUrl user pass, bearerReq vraUrl rt,
   triggerReq vraUrl bt wfId branch]

/-- Observable outcome of the bash retry loop: how many POST attempts ran,
the exit code (if `exit 1` was reached), and how many `sleep 5` pauses
happened. -/
structure TriggerOutcome where
  attempts : Nat
  exitCode : Option Nat
  sleeps : Nat
deriving Repr, DecidableEq

/-- `[ "$HTTP_CODE" -ge 200 ] && [ "$HTTP_CODE" -lt 300 ]`. -/
def isSuccessCode (code : Int) : Bool := 200 ≤ code && code < 300

/-- The bash `for i in {1..3}` body: break on success, `exit 1` when the
literal `i == 3` check fires, otherwise `sleep 5` and continue. -/
def triggerLoop (success : Nat → Bool) :
    List Nat → Nat → Nat → TriggerOutcome
  | [], attempts, sleeps => ⟨attempts, none, sleeps⟩
  | i :: rest, attempts, sleeps =>
      if success i then ⟨attempts + 1, none, sleeps⟩
      else if i == 3 then ⟨attempts + 1, some 1, sleeps⟩
      else triggerLoop success rest (attempts + 1) (sleeps + 1)

/-- The whole retry loop, where `codes i` is the HTTP status of attempt
`i`. -/
def triggerVro (codes : Nat → Int) : TriggerOutcome :=
  triggerLoop (fun i => isSuccessCode (codes i)) [1, 2, 3] 0 0

/-! ## Helper lemmas -/

theorem camelTail_all_lower (cs : List Char)
    (h : ∀ c ∈ cs, lowerAZ c = true) : camelTail cs = true := by
  induction cs with
  | nil => rfl
  | cons c cs ih =>
      have hc : lowerAZ c = true := h c (List.mem_cons_self c cs)
      have ht : camelTail cs = true :=
        ih (fun d hd => h d (List.mem_cons_of_mem c hd))
      simp [camelTail, hc, ht]

theorem foldl_add_eq (g : JVal → Nat) (l : List JVal) (a : Nat) :
    l.foldl (fun acc f => acc + g f) a = a + (l.map g).sum := by
  induction l generalizing a with
  | nil => simp
  | cons x xs ih => simp [List.foldl_cons, ih, Nat.add_assoc]

theorem sum_map_add_distrib (g h : JVal → Nat) (l : List JVal) :
    (l.map (fun f => g f + h f)).sum = (l.map g).sum + (l.map h).sum := by
  induction l with
  | nil => simp
  | cons x xs ih => simp [ih]; omega

theorem fileViolations_split (f : JVal) :
    fileViolations f =
      (if truthy (firstVal f) = false then 1 else 0) + listedFileViolations f := by
  unfold fileViolations listedFileViolations
  by_cases h : truthy (firstVal f) = false <;> simp [h]

theorem totalViolations_split (files : List JVal) :
    totalViolations files = rootViolations files + listedViolations files := by
  unfold totalViolations rootViolations listedViolations
  rw [foldl_add_eq, foldl_add_eq, foldl_add_eq]
  simp only [Nat.zero_add]
  have : files.map fileViolations =
      files.map (fun f =>
        (if truthy (firstVal f) = false then 1 else 0) + listedFileViolations f) := by
    apply List.map_congr_left
    intro f _
    exact fileViolations_split f
  rw [this, sum_map_add_distrib]

theorem mdTableSectionOf_isEmpty (t : String) (rows : List JVal)
    (cols : List Col) :
    mdTableSectionOf t rows cols =
      if rows.isEmpty then ""
      else wrapOpen t ++ table rows cols ++ "</details>\n\n" := by
  cases rows <;> simp [mdTableSectionOf, List.isEmpty]

theorem mdTableSectionOf_ne_empty (t : String) (rows : List JVal)
    (cols : List Col) (h : rows.isEmpty = false) :
    mdTableSectionOf t rows cols ≠ "" := by
  cases rows with
  | nil => simp [List.isEmpty] at h
  | cons r rs =>
      unfold mdTableSectionOf
      rw [if_neg (by simp)]
      intro heq
      have hlen := congrArg String.length heq
      rw [String.length_append, String.length_append] at hlen
      have hw : 0 < (wrapOpen t).length := by
        unfold wrapOpen
        rw [String.length_append, String.length_append]
        have hpos : 0 < ("<details>\n<summary><h2>" : String).length := by decide
        omega
      have h0 : ("" : String).length = 0 := rfl
      omega

/-! ## Claims -/

/-- Claim C8: `collect` coerces any value to an array: an array input is
returned unchanged, a falsy input yields `[]`, any other value yields the
one-element array; consequently `collect` is idempotent, and a single
truthy non-array child is processed exactly like the one-element array the
parser would otherwise have produced. -/
theorem claim_c8 :
    (∀ l, collect (JVal.arr l) = l) ∧
    (∀ x, truthy x = false → collect x = []) ∧
    (∀ x, isArr x = false → truthy x = true → collect x = [x]) ∧
    (∀ x, collect (JVal.arr (collect x)) = collect x) ∧
    (∀ x, isArr x = false → truthy x = true →
      collect (JVal.arr [x]) = collect x) := by
  refine ⟨fun l => rfl, ?_, ?_, fun x => rfl, ?_⟩
  · intro x h
    cases x <;> simp [collect, truthy] at h ⊢ <;> simp [h]
  · intro x ha ht
    cases x <;> simp [isArr] at ha <;> simp [collect, truthy] at ht ⊢ <;> simp [ht]
  · intro x ha ht
    cases x <;> simp [isArr] at ha <;> simp [collect, truthy] at ht ⊢ <;> simp [ht]

/-- Concrete instantiation of `claim_c8`: a truthy non-array value and a
falsy value. -/
theorem claim_c8_witness :
    collect (JVal.str "x") = [JVal.str "x"] ∧ collect JVal.null = [] :=
  ⟨claim_c8.2.2.1 (JVal.str "x") rfl (by decide),
   claim_c8.2.1 JVal.null rfl⟩

/-- Claim C9: every non-empty all-lowercase name passes the camelCase
check `validateName(name, false)`, despite the adjacent source comment
demanding at least one capital. -/
theorem claim_c9 (s : String) (h1 : s ≠ "")
    (h2 : ∀ c ∈ s.data, lowerAZ c = true) :
    validateName (JVal.str s) false = true := by
  have hcc : camelCaseMatch s = true := by
    unfold camelCaseMatch
    cases hx : s.data with
    | nil =>
        exact absurd (String.ext (hx.trans rfl)) h1
    | cons c cs =>
        have hc : lowerAZ c = true := h2 c (by rw [hx]; exact List.mem_cons_self c cs)
        have ht : camelTail cs = true :=
          camelTail_all_lower cs
            (fun d hd => h2 d (by rw [hx]; exact List.mem_cons_of_mem c hd))
        simp [hc, ht]
  have hcoe : jsToString (JVal.str s) = s := rfl
  simpa [validateName, hcoe] using hcc

/-- Concrete instantiation of `claim_c9`. -/
theorem claim_c9_witness : validateName (JVal.str "aviurl") false = true :=
  claim_c9 "aviurl" (by decide) (by decide)

/-- Claim C10: an entry of the combined sections list whose `name` is
absent or falsy is skipped before both the naming check and the
missing-description check, so it contributes no violation at all. -/
theorem claim_c10 (entry : JVal) (v : Nat)
    (h : truthy (jget entry "name") = false) : entryStep v entry = v := by
  unfold entryStep
  simp [h]

/-- Concrete instantiation of `claim_c10`: an unnamed entry without a
description still contributes nothing. -/
theorem claim_c10_witness :
    entryStep 7 (JVal.obj []) = 7 ∧ nodeHasDescription (JVal.obj []) = false :=
  ⟨claim_c10 (JVal.obj []) 7 rfl, by decide⟩

/-- Claim C2: for an entry with a truthy name, the naming check passes iff
the name matches `UPPER_CASE_RE` when `isConstant` holds and iff it
matches `CAMEL_CASE_RE` otherwise; a failing name adds exactly one
violation (and a missing description independently adds one more). -/
theorem claim_c2 (entry : JVal) (v : Nat)
    (h : truthy (jget entry "name") = true) :
    (validateName (jget entry "name") (isConstant entry) = true ↔
      (if isConstant entry then
        upperCaseMatch (jsToString (jget entry "name"))
      else camelCaseMatch (jsToString (jget entry "name"))) = true) ∧
    entryStep v entry =
      v + (if validateName (jget entry "name") (isConstant entry) then 0 else 1)
        + (if nodeHasDescription entry then 0 else 1) := by
  constructor
  · exact Iff.rfl
  · unfold entryStep
    simp only [h]
    cases hv : validateName (jget entry "name") (isConstant entry) <;>
      cases hd : nodeHasDescription entry <;> simp [hv, hd]

/-- Concrete instantiation of `claim_c2` on a camelCase entry without a
description: exactly the description violation is recorded. -/
theorem claim_c2_witness :
    entryStep 0 (JVal.obj [("name", JVal.str "fooBar")]) =
      0 + (if validateName (jget (JVal.obj [("name", JVal.str "fooBar")]) "name")
              (isConstant (JVal.obj [("name", JVal.str "fooBar")])) then 0 else 1)
        + (if nodeHasDescription (JVal.obj [("name", JVal.str "fooBar")]) then 0
           else 1) :=
  (claim_c2 (JVal.obj [("name", JVal.str "fooBar")]) 0 (by decide)).2

/-- Claim C6: the CI trigger loop makes at most 3 attempts, stops at the
first status in `[200, 300)`, sleeps exactly once between consecutive
failed attempts, and exits 1 iff all three attempts fail. -/
theorem claim_c6 (codes : Nat → Int) :
    triggerVro codes =
      (if isSuccessCode (codes 1) then ⟨1, none, 0⟩
       else if isSuccessCode (codes 2) then ⟨2, none, 1⟩
       else if isSuccessCode (codes 3) then ⟨3, none, 2⟩
       else ⟨3, some 1, 2⟩ : TriggerOutcome) ∧
    (triggerVro codes).attempts ≤ 3 ∧
    (triggerVro codes).sleeps = (triggerVro codes).attempts - 1 ∧
    ((triggerVro codes).exitCode = some 1 ↔
      isSuccessCode (codes 1) = false ∧ isSuccessCode (codes 2) = false ∧
        isSuccessCode (codes 3) = false) := by
  cases h1 : isSuccessCode (codes 1) <;> cases h2 : isSuccessCode (codes 2) <;>
    cases h3 : isSuccessCode (codes 3) <;>
      simp [triggerVro, triggerLoop, h1, h2, h3]

/-- Claim C7: the remote-execution job performs its HTTP calls in the
fixed order login → token exchange → trigger, the trigger carrying the
bearer token obtained from the refresh token in its Authorization header
and the workflow id and branch name as its two parameters. -/
theorem claim_c7 (vraUrl user pass wfId branch : String)
    (refreshOf : String → String → String) (bearerOf : String → String) :
    ciTrace vraUrl user pass wfId branch refreshOf bearerOf =
      [loginReq vraUrl user pass,
       bearerReq vraUrl (refreshOf user pass),
       triggerReq vraUrl (bearerOf (refreshOf user pass)) wfId branch] ∧
    (loginReq vraUrl user pass).params =
      [("username", user), ("password", pass)] ∧
    (triggerReq vraUrl (bearerOf (refreshOf user pass)) wfId branch).authHeader =
      some ("Bearer " ++ bearerOf (refreshOf user pass)) ∧
    (triggerReq vraUrl (bearerOf (refreshOf user pass)) wfId branch).params =
      [("workflowID", wfId), ("branchName", branch)] :=
  ⟨rfl, rfl, rfl, rfl⟩

/-- Claim C3, counterexample: a parsed file whose root element is falsy
(an empty `<workflow></workflow>` parses to the empty string) makes the
validator exit 1 although none of the three violation kinds the claim
enumerates — naming failure, missing variable description, missing
workflow-item description — was recorded. -/
theorem claim_c3_counterexample :
    (runValidator [JVal.obj [("workflow", JVal.str "")]]).exitCode = some 1 ∧
    listedViolations [JVal.obj [("workflow", JVal.str "")]] = 0 := by
  constructor <;> rfl

/-- Claim C3 as amended: the validator exits 1 iff at least one violation
was recorded, where besides the three enumerated kinds a falsy workflow
root element also records a violation; with zero violations it does not
exit and prints the success message. -/
theorem claim_c3 (files : List JVal) :
    ((runValidator files).exitCode = some 1 ↔ 0 < totalViolations files) ∧
    ((runValidator files).exitCode = none ↔ totalViolations files = 0) ∧
    ((runValidator files).successMsg = true ↔ totalViolations files = 0) ∧
    totalViolations files = rootViolations files + listedViolations files := by
  refine ⟨?_, ?_, ?_, totalViolations_split files⟩ <;>
    · unfold runValidator
      rcases Nat.eq_zero_or_pos (totalViolations files) with h | h <;>
        simp [h, Nat.pos_iff_ne_zero] <;> omega

/-- Claim C4: the table helper yields the empty string on an empty array;
on a non-empty array it yields exactly one header row, one separator row
and the data rows in input order, a missing key rendering as the empty
string; hence empty table sections are omitted. -/
theorem claim_c4 (arr : List JVal) (cols : List Col) :
    table [] cols = "" ∧
    (arr ≠ [] →
      table arr cols =
        ("| " ++ String.intercalate " | " (cols.map Col.header) ++ " |\n") ++
        ("|" ++ strRepeat "-|" cols.length ++ "\n") ++
        (String.intercalate "\n" (arr.map (tableRow cols)) ++ "\n")) ∧
    (arr.map (tableRow cols)).length = arr.length ∧
    (∀ r k, jget r k = JVal.undefined → tableCellVal r k = JVal.str "") ∧
    (∀ title, mdTableSectionOf title [] cols = "") := by
  refine ⟨rfl, ?_, List.length_map arr (tableRow cols), ?_, fun _ => rfl⟩
  · intro h
    have hlen : (arr.length == 0) = false := by
      simp [List.length_eq_zero, h]
    unfold table
    rw [hlen]
    have hsplit : (" |\n|" : String) = " |\n" ++ "|" := rfl
    rw [if_neg (by simp)]
    simp only [String.append_assoc]
    rw [hsplit, String.append_assoc]
  · intro r k hk
    unfold tableCellVal
    rw [hk]
    rfl

/-- Concrete instantiation of `claim_c4` on a one-row table whose row is
missing both keys. -/
theorem claim_c4_witness :
    table [JVal.obj []] nameTypeCols =
      ("| " ++ String.intercalate " | " (nameTypeCols.map Col.header) ++ " |\n") ++
      ("|" ++ strRepeat "-|" nameTypeCols.length ++ "\n") ++
      (String.intercalate "\n" ([JVal.obj []].map (tableRow nameTypeCols)) ++ "\n") ∧
    tableCellVal (JVal.obj []) "name" = JVal.str "" :=
  ⟨(claim_c4 [JVal.obj []] nameTypeCols).2.1 (List.cons_ne_nil _ _),
   (claim_c4 [JVal.obj []] nameTypeCols).2.2.2.1 (JVal.obj []) "name" rfl⟩

/-- Claim C5: the generator's single try/catch guards the form read; when
it fails `formProps` stays `[]`, and since form data only ever feeds the
Workflow Form section, the rest of the generated document is unaffected
(the failed read yields exactly the document without a form section). -/
theorem claim_c5 (root : JVal) (base : String) (r : Except Unit JVal) :
    formPropsOf (Except.error ()) = [] ∧
    genMd root base (formPropsOf r) =
      mdBeforeFormOf root base ++
      mdTableSectionOf "Workflow Form" (formPropsOf r) formCols ++
      mdAfterFormOf root ∧
    genMd root base (formPropsOf (Except.error ())) =
      mdBeforeFormOf root base ++ mdAfterFormOf root := by
  refine ⟨rfl, ?_, ?_⟩
  · simp [genMd, mdBeforeFormOf, mdAfterFormOf, String.append_assoc]
  · show genMd root base [] = _
    simp [genMd, mdBeforeFormOf, mdAfterFormOf, mdTableSectionOf,
      String.append_assoc]

/-- Claim C1: the generated document begins with the
`# <name> - Workflow Documentation` heading; it always contains the
Workflow Details block listing name, id, version and description; each of
the Workflow Variables / Inputs / Outputs / Form table sections is emitted
exactly when the corresponding collection is non-empty; the Elements
section holds one `#### Element:` block per workflow item, each block
carrying the type and description lines, the guarded input/output binding
tables and the fenced script when present; and the Error Handlers and
Linked Workflows sections are always present. -/
theorem claim_c1 (root : JVal) (base : String) (fp : List JVal) :
    genMd root base fp =
      mdHeaderOf root base ++ mdDetailsOf root base ++
      mdTableSectionOf "Workflow Variables" (attribsOf root) nameTypeCols ++
      mdTableSectionOf "Workflow Inputs" (inputsOf root) nameTypeCols ++
      mdTableSectionOf "Workflow Outputs" (outputsOf root) nameTypeCols ++
      mdTableSectionOf "Workflow Form" fp formCols ++
      mdElementsOf root ++ mdErrorHandlersOf root ++
      mdLinkedWorkflowsOf root ++ mdLinkedModulesOf root ∧
    (∃ rest, genMd root base fp =
      "# " ++ jsToString (wfNameOf root base) ++
        " - Workflow Documentation\n\n" ++ rest) ∧
    mdDetailsOf root base =
      "<details>\n<summary><h2>Workflow Details</h2></summary>\n\n" ++
      ("- **Workflow Name:** " ++ jsToString (wfNameOf root base) ++ "\n") ++
      ("- **Workflow ID:** `" ++ jsToString (wfIdOf root) ++ "`\n") ++
      ("- **Version:** " ++ jsToString (wfVersionOf root) ++ "\n") ++
      ("- **Description:** " ++ jsToString (wfDescOf root) ++ "\n") ++
      "</details>\n\n" ∧
    (∀ (t : String) (rows : List JVal) (cs : List Col),
      mdTableSectionOf t rows cs =
        (if rows.isEmpty then ""
         else wrapOpen t ++ table rows cs ++ "</details>\n\n") ∧
      (rows.isEmpty = false → mdTableSectionOf t rows cs ≠ "")) ∧
    mdElementsOf root =
      wrapOpen "Workflow Elements" ++
        String.join ((docItemsOf root).map elementBlock) ++
        "</details>\n\n" ∧
    (∀ el, elementBlock el =
      "#### Element: " ++ jsToString (dispNameOf el) ++ "\n" ++
      ("- **Type:** " ++ jsToString (jget el "type") ++ "\n") ++
      ("- **Description:** " ++
        jsToString (jnc (jget el "description")
          (JVal.str "_No description provided_")) ++ "\n") ++
      elInBindingPart el ++ elOutBindingPart el ++ elScriptPart el ++
      "\n---\n\n") ∧
    (∀ el, (collect (jget (jget el "in-binding") "bind")).isEmpty = false →
      ∃ a b, elementBlock el =
        a ++ ("\n**Input Bindings:**\n\n" ++
          table (collect (jget (jget el "in-binding") "bind")) bindCols) ++ b) ∧
    (∀ el, (collect (jget (jget el "out-binding") "bind")).isEmpty = false →
      ∃ a b, elementBlock el =
        a ++ ("\n**Output Bindings:**\n\n" ++
          table (collect (jget (jget el "out-binding") "bind")) bindCols) ++ b) ∧
    (∀ el s, scriptTextOf el = JVal.str s → s ≠ "" →
      ∃ a b, elementBlock el = a ++ fence (jsTrim s) ++ b) ∧
    (∃ x, mdErrorHandlersOf root = wrapOpen "Error Handlers" ++ x) ∧
    (∃ x, mdLinkedWorkflowsOf root = wrapOpen "Linked Workflows" ++ x) := by
  refine ⟨rfl, ?_, ?_, ?_, rfl, ?_, ?_, ?_, ?_, ?_, ?_⟩
  · refine ⟨mdDetailsOf root base ++
      mdTableSectionOf "Workflow Variables" (attribsOf root) nameTypeCols ++
      mdTableSectionOf "Workflow Inputs" (inputsOf root) nameTypeCols ++
      mdTableSectionOf "Workflow Outputs" (outputsOf root) nameTypeCols ++
      mdTableSectionOf "Workflow Form" fp formCols ++
      mdElementsOf root ++ mdErrorHandlersOf root ++
      mdLinkedWorkflowsOf root ++ mdLinkedModulesOf root, ?_⟩
    simp [genMd, mdHeaderOf, String.append_assoc]
  · have hw : wrapOpen "Workflow Details" =
        "<details>\n<summary><h2>Workflow Details</h2></summary>\n\n" := rfl
    unfold mdDetailsOf
    rw [hw]
    simp only [String.append_assoc]
  · exact fun t rows cs =>
      ⟨mdTableSectionOf_isEmpty t rows cs,
       fun h => mdTableSectionOf_ne_empty t rows cs h⟩
  · intro el
    simp only [elementBlock, String.append_assoc]
  · intro el h
    cases hr : collect (jget (jget el "in-binding") "bind") with
    | nil => rw [hr] at h; simp [List.isEmpty] at h
    | cons x xs =>
        refine ⟨"#### Element: " ++ jsToString (dispNameOf el) ++ "\n" ++
          "- **Type:** " ++ jsToString (jget el "type") ++ "\n" ++
          "- **Description:** " ++
            jsToString (jnc (jget el "description")
              (JVal.str "_No description provided_")) ++ "\n",
          elOutBindingPart el ++ elScriptPart el ++ "\n---\n\n", ?_⟩
        have hp : elInBindingPart el = "\n**Input Bindings:**\n\n" ++
            table (collect (jget (jget el "in-binding") "bind")) bindCols := by
          unfold elInBindingPart
          rw [hr, if_neg (by simp)]
        simp [elementBlock, hp, hr, String.append_assoc]
  · intro el h
    cases hr : collect (jget (jget el "out-binding") "bind") with
    | nil => rw [hr] at h; simp [List.isEmpty] at h
    | cons x xs =>
        refine ⟨"#### Element: " ++ jsToString (dispNameOf el) ++ "\n" ++
          "- **Type:** " ++ jsToString (jget el "type") ++ "\n" ++
          "- **Description:** " ++
            jsToString (jnc (jget el "description")
              (JVal.str "_No description provided_")) ++ "\n" ++
          elInBindingPart el,
          elScriptPart el ++ "\n---\n\n", ?_⟩
        have hp : elOutBindingPart el = "\n**Output Bindings:**\n\n" ++
            table (collect (jget (jget el "out-binding") "bind")) bindCols := by
          unfold elOutBindingPart
          rw [hr, if_neg (by simp)]
        simp [elementBlock, hp, hr, String.append_assoc]
  · intro el s hs hne
    refine ⟨"#### Element: " ++ jsToString (dispNameOf el) ++ "\n" ++
      "- **Type:** " ++ jsToString (jget el "type") ++ "\n" ++
      "- **Description:** " ++
        jsToString (jnc (jget el "description")
          (JVal.str "_No description provided_")) ++ "\n" ++
      elInBindingPart el ++ elOutBindingPart el ++ "\n**Script:**\n\n",
      "\n" ++ "\n---\n\n", ?_⟩
    have hp : elScriptPart el =
        "\n**Script:**\n\n" ++ fence (jsTrim s) ++ "\n" := by
      unfold elScriptPart
      rw [hs]
      show (if s == "" then ""
        else "\n**Script:**\n\n" ++ fence (jsTrim s) ++ "\n") = _
      rw [if_neg (by simp [hne])]
    simp [elementBlock, hp, String.append_assoc]
  · exact ⟨errorHandlerLines root ++ "</details>\n\n",
      by simp [mdErrorHandlersOf, String.append_assoc]⟩
  · exact ⟨linkedWorkflowLines root ++ "</details>\n\n",
      by simp [mdLinkedWorkflowsOf, String.append_assoc]⟩

/-- Concrete instantiation of `claim_c1` on an element with one input
binding and a script, and on a non-empty variables table. -/
theorem claim_c1_witness :
    (∃ a b, elementBlock (JVal.obj
        [("in-binding", JVal.obj [("bind", JVal.obj [("name", JVal.str "x")])]),
         ("script", JVal.obj [("_", JVal.str "code")])]) =
      a ++ ("\n**Input Bindings:**\n\n" ++
        table (collect (jget (jget (JVal.obj
          [("in-binding", JVal.obj [("bind", JVal.obj [("name", JVal.str "x")])]),
           ("script", JVal.obj [("_", JVal.str "code")])]) "in-binding") "bind"))
          bindCols) ++ b) ∧
    (∃ a b, elementBlock (JVal.obj
        [("in-binding", JVal.obj [("bind", JVal.obj [("name", JVal.str "x")])]),
         ("script", JVal.obj [("_", JVal.str "code")])]) =
      a ++ fence (jsTrim "code") ++ b) ∧
    mdTableSectionOf "Workflow Variables" [JVal.obj []] nameTypeCols ≠ "" :=
  ⟨(claim_c1 (JVal.obj []) "wf.xml" []).2.2.2.2.2.2.1 (JVal.obj
      [("in-binding", JVal.obj [("bind", JVal.obj [("name", JVal.str "x")])]),
       ("script", JVal.obj [("_", JVal.str "code")])]) (by decide),
   (claim_c1 (JVal.obj []) "wf.xml" []).2.2.2.2.2.2.2.2.1 (JVal.obj
      [("in-binding", JVal.obj [("bind", JVal.obj [("name", JVal.str "x")])]),
       ("script", JVal.obj [("_", JVal.str "code")])]) "code" rfl (by decide),
   ((claim_c1 (JVal.obj []) "wf.xml" []).2.2.2.1 "Workflow Variables"
      [JVal.obj []] nameTypeCols).2 (by decide)⟩

end Vro

